import Mathlib

/-!
Shallow embedding of `hikari/internal/marshaller.c` and
`hikari/internal/marshaller.cpp`: the handle resolver `dereference_handle`
together with the C helper `_recursive_getattr`.

Strings are modelled as `List Char` (the characters of the C string, the
terminating NUL byte excluded).  The two collaborators — module import
(`importlib.import_module` resp. `PyImport_ImportModule`) and attribute
lookup (`PyObject_GetAttrString`) — are parameters `imp` and `ga` returning
`Except`: `.error` models a NULL return with a Python exception set.  Each
model returns both its outcome and the ordered list of collaborator calls
it makes, so that statements about which imports and lookups happen can be
expressed.
-/

namespace Marshaller

/-- One collaborator call made during resolution: a module import or an
attribute lookup, identified by the name string passed to the collaborator. -/
inductive Call : Type where
  | imp (name : List Char) : Call
  | getattr (name : List Char) : Call
  deriving DecidableEq

/-- Outcome of a resolution: a Python object, an error (NULL returned with an
exception set), or undefined behaviour (`crash`): the loop in the C
`_recursive_getattr` does not check its intermediate results for NULL, so
after a failed lookup the next iteration applies `PyObject_GetAttrString`
to NULL. -/
inductive CResult (E Obj : Type) : Type where
  | ok (o : Obj) : CResult E Obj
  | err (e : E) : CResult E Obj
  | crash : CResult E Obj
  deriving DecidableEq

/-- Lift a collaborator result into a `CResult`. -/
def ofExcept {E Obj : Type} : Except E Obj → CResult E Obj
  | Except.ok o => CResult.ok o
  | Except.error e => CResult.err e

/-- Index of the first occurrence of a character in a character list
(`strstr` with a one-character needle / `find_first_of`). -/
def charIdx (c : Char) : List Char → Option Nat
  | [] => none
  | a :: l => if a = c then some 0 else (charIdx c l).map (· + 1)

/-- Position of the first `#` in the handle string, if any. -/
def hashIdx (s : List Char) : Option Nat :=
  charIdx '#' s

/-- Fields of a string split on every period, empty fields included:
`splitDots s` always has exactly one more field than `s` has periods. -/
def splitDots : List Char → List (List Char)
  | [] => [[]]
  | c :: cs =>
    if c = '.' then [] :: splitDots cs
    else
      match splitDots cs with
      | [] => [[c]]
      | f :: fs => (c :: f) :: fs

/-- Token list produced by `while (std::getline(stream, token, '.'))` over a
string: `std::getline` reads a field up to the next period or the end of
the stream and fails only when it extracts no characters at all, and a
field closed by a period counts that period as extracted.  Hence every
period-separated field is produced except a final empty one. -/
def getlineSplit (s : List Char) : List (List Char) :=
  let parts := splitDots s
  if parts.getLast? = some [] then parts.dropLast else parts

/-- `_recursive_getattr` from `marshaller.c`, applied to the period-split
fields (`splitDots`) of its attribute string.  The C loop looks up every
field that precedes a period without checking the result for NULL, then
performs one final lookup with the remaining field.  After a failed
lookup the next call, if any, therefore receives NULL, which is undefined
behaviour (`crash`); execution cannot proceed past that call.  Returns the
outcome and the lookup calls made, in order. -/
def recGetattrC {E Obj : Type} (ga : Obj → List Char → Except E Obj) :
    Obj → List (List Char) → CResult E Obj × List Call
  | o, [] => (CResult.ok o, [])
  | o, [seg] =>
    (match ga o seg with
     | Except.ok o2 => CResult.ok o2
     | Except.error e => CResult.err e,
     [Call.getattr seg])
  | o, seg :: seg2 :: rest =>
    match ga o seg with
    | Except.ok o2 =>
      let r := recGetattrC ga o2 (seg2 :: rest)
      (r.1, Call.getattr seg :: r.2)
    | Except.error _ => (CResult.crash, [Call.getattr seg, Call.getattr seg2])

/-- `dereference_handle` from `marshaller.c`.  `strstr` locates the first
`#`.  The guard is `p_strstr == NULL || (p_strstr - handle_str) <= 1`:
no separator, or the separator at index 0 **or index 1**, in which case
the whole handle string is passed to the import collaborator.  Otherwise
the prefix before the `#` is imported (the source copies that prefix with
`strncpy` into a buffer of exactly `module_len` bytes and never writes a
NUL terminator — a memory-safety defect below this string-level
abstraction, which models the prefix the copy was meant to produce) and,
if the import succeeded, `_recursive_getattr` walks the suffix after the
`#`; a failed import returns NULL at once. -/
def derefC {E Obj : Type} (imp : List Char → Except E Obj)
    (ga : Obj → List Char → Except E Obj) (h : List Char) :
    CResult E Obj × List Call :=
  match hashIdx h with
  | none => (ofExcept (imp h), [Call.imp h])
  | some i =>
    if i ≤ 1 then
      (ofExcept (imp h), [Call.imp h])
    else
      let moduleStr := h.take i
      match imp moduleStr with
      | Except.error e => (CResult.err e, [Call.imp moduleStr])
      | Except.ok m =>
        let r := recGetattrC ga m (splitDots (h.drop (i + 1)))
        (r.1, Call.imp moduleStr :: r.2)

/-- The attribute loop of the C++ `dereference_handle`: walk the getline
tokens left to right, returning at the first NULL (`RETURN_IF_NULL` after
every lookup). -/
def walkCpp {E Obj : Type} (ga : Obj → List Char → Except E Obj) :
    Obj → List (List Char) → CResult E Obj × List Call
  | o, [] => (CResult.ok o, [])
  | o, seg :: rest =>
    match ga o seg with
    | Except.error e => (CResult.err e, [Call.getattr seg])
    | Except.ok o2 =>
      let r := walkCpp ga o2 rest
      (r.1, Call.getattr seg :: r.2)

/-- `dereference_handle` from `marshaller.cpp`.  `find_first_of("#")`
locates the first `#`; if there is none the whole handle is imported,
otherwise `substr(0, hash_pos)` is imported — for any position of the
`#`, including position 0, where the module name is empty — and, if the
the import succeeded, the getline tokens of `substr(hash_pos + 1)` are walked
with a NULL check after every lookup. -/
def derefCpp {E Obj : Type} (imp : List Char → Except E Obj)
    (ga : Obj → List Char → Except E Obj) (h : List Char) :
    CResult E Obj × List Call :=
  match hashIdx h with
  | none => (ofExcept (imp h), [Call.imp h])
  | some i =>
    let moduleName := h.take i
    match imp moduleName with
    | Except.error e => (CResult.err e, [Call.imp moduleName])
    | Except.ok m =>
      let r := walkCpp ga m (getlineSplit (h.drop (i + 1)))
      (r.1, Call.imp moduleName :: r.2)

/-- The string the C implementation passes to the import collaborator. -/
def cModuleRef (h : List Char) : List Char :=
  match hashIdx h with
  | none => h
  | some i => if i ≤ 1 then h else h.take i

/-- The string the C++ implementation passes to the import collaborator. -/
def cppModuleRef (h : List Char) : List Char :=
  match hashIdx h with
  | none => h
  | some i => h.take i

/-- A module state in which every import fails. -/
def impNone : List Char → Except Nat Nat := fun _ => Except.error 0

/-- An attribute accessor on which every lookup fails. -/
def gaNone : Nat → List Char → Except Nat Nat := fun _ _ => Except.error 0

/-- A module state with a single module `m` (object 0); importing anything
else, in particular a string containing `#`, fails. -/
def impM : List Char → Except Nat Nat :=
  fun s => if s = "m".toList then Except.ok 0 else Except.error 0

/-- An attribute accessor where object 0 has exactly the attribute `x`
(object 1). -/
def gaM : Nat → List Char → Except Nat Nat :=
  fun o s => if o = 0 ∧ s = "x".toList then Except.ok 1 else Except.error 1

/-- An attribute accessor where object 0 has exactly the attribute `a`
(object 1), and object 1 has no attributes: lookups of `b` fail. -/
def gaA : Nat → List Char → Except Nat Nat :=
  fun o s => if o = 0 ∧ s = "a".toList then Except.ok 1 else Except.error 9

/-- An attribute accessor realising the chain `a.b.c` from object 0:
`getattr 0 a = 1`, `getattr 1 b = 2`, `getattr 2 c = 3`. -/
def gaChain : Nat → List Char → Except Nat Nat :=
  fun o s =>
    if o = 0 ∧ s = "a".toList then Except.ok 1
    else if o = 1 ∧ s = "b".toList then Except.ok 2
    else if o = 2 ∧ s = "c".toList then Except.ok 3
    else Except.error 8

/-- A module state with a single module `ab` (object 0). -/
def impAB : List Char → Except Nat Nat :=
  fun s => if s = "ab".toList then Except.ok 0 else Except.error 10

/-- A module state in which only the empty module name imports (object 5). -/
def impEmptyOk : List Char → Except Nat Nat :=
  fun s => if s = [] then Except.ok 5 else Except.error 0

/-- An attribute accessor where object 5 has exactly the attribute `x`
(object 7). -/
def gaX : Nat → List Char → Except Nat Nat :=
  fun o s => if o = 5 ∧ s = "x".toList then Except.ok 7 else Except.error 1

theorem charIdx_eq_none {c : Char} : ∀ (l : List Char), c ∉ l → charIdx c l = none
  | [], _ => rfl
  | a :: l, hl => by
    have h1 : ¬ a = c := fun e => hl (List.mem_cons.mpr (Or.inl e.symm))
    have h2 : c ∉ l := fun m => hl (List.mem_cons.mpr (Or.inr m))
    simp [charIdx, h1, charIdx_eq_none l h2]

theorem derefC_trace_head {E Obj : Type} (imp : List Char → Except E Obj)
    (ga : Obj → List Char → Except E Obj) (h : List Char) :
    (derefC imp ga h).2.head? = some (Call.imp (cModuleRef h)) := by
  cases hx : hashIdx h with
  | none => simp [derefC, cModuleRef, hx]
  | some i =>
    by_cases hi : i ≤ 1
    · simp [derefC, cModuleRef, hx, hi]
    · cases him : imp (h.take i) <;>
        simp [derefC, cModuleRef, hx, hi, him]

theorem derefCpp_trace_head {E Obj : Type} (imp : List Char → Except E Obj)
    (ga : Obj → List Char → Except E Obj) (h : List Char) :
    (derefCpp imp ga h).2.head? = some (Call.imp (cppModuleRef h)) := by
  cases hx : hashIdx h with
  | none => simp [derefCpp, cppModuleRef, hx]
  | some i =>
    cases him : imp (h.take i) <;>
      simp [derefCpp, cppModuleRef, hx, him]

theorem recGetattrC_eq_walkCpp {E Obj : Type} (ga : Obj → List Char → Except E Obj) :
    ∀ (segs : List (List Char)) (m : Obj),
      (recGetattrC ga m segs).1 ≠ CResult.crash →
      recGetattrC ga m segs = walkCpp ga m segs
  | [], _, _ => rfl
  | [seg], m, _ => by
    cases hg : ga m seg <;> simp [recGetattrC, walkCpp, hg]
  | seg :: seg2 :: rest, m, hc => by
    cases hg : ga m seg with
    | error e =>
      exfalso
      apply hc
      simp [recGetattrC, hg]
    | ok o2 =>
      have hc2 : (recGetattrC ga o2 (seg2 :: rest)).1 ≠ CResult.crash := by
        intro hcr
        apply hc
        simp [recGetattrC, hg, hcr]
      simp [recGetattrC, walkCpp, hg,
        recGetattrC_eq_walkCpp ga (seg2 :: rest) o2 hc2]

/-- Claim C1: the claim states that for every handle `m#a.b.c` whose module
is importable and whose whole chain exists, `dereference_handle` returns the
object of the sequential lookup.  The C implementation violates this for a
one-character module reference, against its own comment: the separator at
index 1 satisfies `(p_strstr - handle_str) <= 1`, so the handle `m#a.b.c`
is imported whole and fails, although module `m` imports and the chain
`a`, `a.b`, `a.b.c` exists (the C++ implementation resolves the same state
to object 3, the value of the sequential lookup). -/
theorem chain_bug_concrete :
    derefC impM gaChain ("m#a.b.c".toList) =
      (CResult.err 0, [Call.imp ("m#a.b.c".toList)]) ∧
    derefCpp impM gaChain ("m#a.b.c".toList) =
      (CResult.ok 3, [Call.imp ("m".toList), Call.getattr ("a".toList),
        Call.getattr ("b".toList), Call.getattr ("c".toList)]) := by decide

/-- Claim C2: the claim states that for `m#a.b` with `a` present and `b`
absent the resolution fails at segment `b` and no lookup happens past the
failure.  The C implementation violates this for a one-character module
reference, against its own comment: it imports the handle `m#a.b` whole,
performs no attribute lookup, and fails with the import error, which does
not identify segment `b` (the C++ implementation imports `m`, looks up
`a`, fails at `b` and stops there, as the claim describes). -/
theorem order_bug_concrete :
    derefC impM gaA ("m#a.b".toList) =
      (CResult.err 0, [Call.imp ("m#a.b".toList)]) ∧
    derefCpp impM gaA ("m#a.b".toList) =
      (CResult.err 9, [Call.imp ("m".toList), Call.getattr ("a".toList),
        Call.getattr ("b".toList)]) := by decide

/-- Claim C3: the claim states that a lone trailing `#` is ignored.  The C
implementation violates this, against its own comment: for `ab#` it
first imports `ab` and then does the attribute lookup `getattr(module, "")`,
which fails, instead of returning the module; and for `m#` (separator at
index 1) it imports the whole string `m#`, separator included.  The C++
implementation behaves as the claim states: the getline loop over the
empty suffix runs zero times and the module is returned. -/
theorem trailing_bug_concrete :
    derefC impAB gaNone ("ab#".toList) =
      (CResult.err 0, [Call.imp ("ab".toList), Call.getattr []]) ∧
    derefCpp impAB gaNone ("ab#".toList) =
      (CResult.ok 0, [Call.imp ("ab".toList)]) ∧
    derefC impAB gaNone ("m#".toList) =
      (CResult.err 10, [Call.imp ("m#".toList)]) := by decide

/-- Claim C4: the claim states that whenever at least one character precedes
the `#`, the prefix before the `#` is imported and the suffix is walked,
naming `m#x` as an instance.  The C implementation violates exactly that
instance, against its own comment: with the separator at index 1 it
loads the whole string `m#x` and fails, while the C++ implementation
splits, imports `m` and resolves the attribute `x`. -/
theorem split_bug_concrete :
    derefC impM gaM ("m#x".toList) =
      (CResult.err 0, [Call.imp ("m#x".toList)]) ∧
    derefCpp impM gaM ("m#x".toList) =
      (CResult.ok 1, [Call.imp ("m".toList), Call.getattr ("x".toList)]) := by decide

/-- Claim C5, counterexample: the claim states that `#x` and `m#a..b` fail
with a malformed-handle error with no import or lookup call at all.  In
fact both implementations invoke the import collaborator on both handles:
the C implementation on each whole handle string, the C++ implementation
on the empty module name for `#x` and on `m` for `m#a..b`. -/
theorem malformed_handles_cex :
    (Call.imp ("#x".toList) ∈ (derefC impNone gaNone ("#x".toList)).2) ∧
    (Call.imp [] ∈ (derefCpp impNone gaNone ("#x".toList)).2) ∧
    (Call.imp ("m#a..b".toList) ∈ (derefC impNone gaNone ("m#a..b".toList)).2) ∧
    (Call.imp ("m".toList) ∈ (derefCpp impNone gaNone ("m#a..b".toList)).2) := by decide

/-- Claim C5, amended: neither implementation performs any malformed-handle
validation.  For every module state, on `#x` and on `m#a..b` each
implementation begins by invoking the import collaborator — the C
implementation on the entire handle string (its only call), the C++
implementation on the empty module reference for `#x` and on `m` for
`m#a..b` — and any failure is an import or attribute error produced by the
collaborators. -/
theorem malformed_handles_amended {E Obj : Type} (imp : List Char → Except E Obj)
    (ga : Obj → List Char → Except E Obj) :
    (derefC imp ga ("#x".toList)).2 = [Call.imp ("#x".toList)] ∧
    (derefCpp imp ga ("#x".toList)).2.head? = some (Call.imp []) ∧
    (derefC imp ga ("m#a..b".toList)).2 = [Call.imp ("m#a..b".toList)] ∧
    (derefCpp imp ga ("m#a..b".toList)).2.head? = some (Call.imp ("m".toList)) := by
  refine ⟨rfl, ?_, rfl, ?_⟩
  · exact derefCpp_trace_head imp ga ("#x".toList)
  · exact derefCpp_trace_head imp ga ("m#a..b".toList)

/-- Claim C6: for every handle containing no `#`, both implementations pass
the entire handle string to the import collaborator, return its result
unchanged, and perform no attribute lookup (the call trace is exactly the
one import). -/
theorem noHash_result {E Obj : Type} (imp : List Char → Except E Obj)
    (ga : Obj → List Char → Except E Obj) (h : List Char) (hh : '#' ∉ h) :
    derefC imp ga h = (ofExcept (imp h), [Call.imp h]) ∧
    derefCpp imp ga h = (ofExcept (imp h), [Call.imp h]) := by
  have hx : hashIdx h = none := charIdx_eq_none h hh
  constructor
  · simp [derefC, hx]
  · simp [derefCpp, hx]

theorem noHash_result_witness :
    derefC impNone gaNone ("collections".toList) =
      (ofExcept (impNone ("collections".toList)), [Call.imp ("collections".toList)]) ∧
    derefCpp impNone gaNone ("collections".toList) =
      (ofExcept (impNone ("collections".toList)), [Call.imp ("collections".toList)]) :=
  noHash_result impNone gaNone ("collections".toList) (by decide)

/-- Claim C7: when the import of the module reference fails, each
implementation returns that import error unchanged, and its call trace is
exactly the one import call — no attribute lookup happens after the
failed import. -/
theorem importFail_result {E Obj : Type} (imp : List Char → Except E Obj)
    (ga : Obj → List Char → Except E Obj) (h : List Char) (e e2 : E) :
    (imp (cModuleRef h) = Except.error e →
      derefC imp ga h = (CResult.err e, [Call.imp (cModuleRef h)])) ∧
    (imp (cppModuleRef h) = Except.error e2 →
      derefCpp imp ga h = (CResult.err e2, [Call.imp (cppModuleRef h)])) := by
  constructor
  · intro he
    cases hx : hashIdx h with
    | none =>
      simp only [cModuleRef, hx] at he ⊢
      simp [derefC, hx, he, ofExcept]
    | some i =>
      by_cases hi : i ≤ 1
      · simp only [cModuleRef, hx, if_pos hi] at he ⊢
        simp [derefC, hx, hi, he, ofExcept]
      · simp only [cModuleRef, hx, if_neg hi] at he ⊢
        simp [derefC, hx, hi, he]
  · intro he
    cases hx : hashIdx h with
    | none =>
      simp only [cppModuleRef, hx] at he ⊢
      simp [derefCpp, hx, he, ofExcept]
    | some i =>
      simp only [cppModuleRef, hx] at he ⊢
      simp [derefCpp, hx, he]

theorem importFail_result_witness :
    derefC impNone gaNone ("no.such.module#x".toList) =
      (CResult.err 0, [Call.imp (cModuleRef ("no.such.module#x".toList))]) ∧
    derefCpp impNone gaNone ("no.such.module#x".toList) =
      (CResult.err 0, [Call.imp (cppModuleRef ("no.such.module#x".toList))]) :=
  ⟨(importFail_result impNone gaNone ("no.such.module#x".toList) 0 0).1 rfl,
   (importFail_result impNone gaNone ("no.such.module#x".toList) 0 0).2 rfl⟩

/-- Claim C8: both implementations are deterministic — their outcome and
call trace are a function of the handle string and of the input-output
behaviour of the two collaborators (the module state) alone, so two
invocations against the same module state return the same result. -/
theorem deref_deterministic {E Obj : Type} (imp imp2 : List Char → Except E Obj)
    (ga ga2 : Obj → List Char → Except E Obj) (h : List Char)
    (hi : ∀ s, imp s = imp2 s) (hg : ∀ o s, ga o s = ga2 o s) :
    derefC imp ga h = derefC imp2 ga2 h ∧
    derefCpp imp ga h = derefCpp imp2 ga2 h := by
  have e1 : imp = imp2 := funext hi
  have e2 : ga = ga2 := funext fun o => funext fun s => hg o s
  rw [e1, e2]
  exact ⟨rfl, rfl⟩

theorem deref_deterministic_witness :
    derefC impM gaM ("m#x".toList) = derefC impM gaM ("m#x".toList) ∧
    derefCpp impM gaM ("m#x".toList) = derefCpp impM gaM ("m#x".toList) :=
  deref_deterministic impM impM gaM gaM ("m#x".toList) (fun _ => rfl) (fun _ _ => rfl)

/-- Claim C9, counterexample: the claim states that a handle whose `#` is at
the very first character is treated whole as the module reference, with no
attribute chain.  The C++ implementation on `#x` instead imports the empty
module name and then performs the attribute lookup `x`: in a module state
where the empty name imports to object 5 whose attribute `x` is object 7,
it returns object 7, and its call trace is not the single import of the
whole string `#x`. -/
theorem hashFirst_cex :
    derefCpp impEmptyOk gaX ("#x".toList) =
      (CResult.ok 7, [Call.imp [], Call.getattr ("x".toList)]) ∧
    (Call.getattr ("x".toList) ∈ (derefCpp impEmptyOk gaX ("#x".toList)).2) ∧
    (derefCpp impEmptyOk gaX ("#x".toList)).2 ≠ [Call.imp ("#x".toList)] := by decide

/-- Claim C9, amended: when the `#` is absent or at the very first
character, the C implementation imports the entire handle string with no
attribute lookup; the C++ implementation does so only when the `#` is
absent, and when the `#` is the first character it instead invokes the
module importer on the empty module reference and then walks the
attribute chain after the `#`. -/
theorem hashFirst_amended {E Obj : Type} (imp : List Char → Except E Obj)
    (ga : Obj → List Char → Except E Obj) (h : List Char)
    (hh : hashIdx h = none ∨ hashIdx h = some 0) :
    derefC imp ga h = (ofExcept (imp h), [Call.imp h]) ∧
    (hashIdx h = none → derefCpp imp ga h = (ofExcept (imp h), [Call.imp h])) ∧
    (hashIdx h = some 0 → (derefCpp imp ga h).2.head? = some (Call.imp [])) := by
  refine ⟨?_, ?_, ?_⟩
  · rcases hh with hx | hx
    · simp [derefC, hx]
    · simp [derefC, hx]
  · intro hx
    simp [derefCpp, hx]
  · intro hx
    have t := derefCpp_trace_head imp ga h
    unfold cppModuleRef at t
    rw [hx] at t
    simpa using t

theorem hashFirst_amended_witness :
    derefC impEmptyOk gaX ("#x".toList) =
      (ofExcept (impEmptyOk ("#x".toList)), [Call.imp ("#x".toList)]) ∧
    (derefCpp impEmptyOk gaX ("#x".toList)).2.head? = some (Call.imp []) := by
  have t := hashFirst_amended impEmptyOk gaX ("#x".toList) (Or.inr (by decide))
  exact ⟨t.1, t.2.2 (by decide)⟩

/-- Claim C10, counterexample: the C and C++ implementations are not
equivalent.  On the handle `m#x`, in a module state with a module `m`
whose attribute `x` is object 1, the C implementation imports the whole
string `m#x` and fails while the C++ implementation returns object 1. -/
theorem equiv_cex :
    derefC impM gaM ("m#x".toList) ≠ derefCpp impM gaM ("m#x".toList) := by decide

/-- Claim C10, amended: the two implementations agree on every handle
without `#`; and on every handle whose first `#` is at index at least 2
they agree whenever either the module import fails, or the period-split
attribute fields do not end in an empty field and no lookup before the
last field fails (the divergent cases are exactly: `#` at index 0 or 1,
which the C implementation refuses to split; a trailing empty field,
which C++'s getline drops while C looks it up; and a failure before the
last field, after which the C loop reaches undefined behaviour while C++
returns the error). -/
theorem impl_agree {E Obj : Type} (imp : List Char → Except E Obj)
    (ga : Obj → List Char → Except E Obj) (h : List Char) :
    (hashIdx h = none → derefC imp ga h = derefCpp imp ga h) ∧
    (∀ i, hashIdx h = some i → 2 ≤ i →
      (∀ m, imp (h.take i) = Except.ok m →
        (splitDots (h.drop (i + 1))).getLast? ≠ some [] ∧
        (recGetattrC ga m (splitDots (h.drop (i + 1)))).1 ≠ CResult.crash) →
      derefC imp ga h = derefCpp imp ga h) := by
  constructor
  · intro hx
    simp [derefC, derefCpp, hx]
  · intro i hx hi hm
    have hi2 : ¬ i ≤ 1 := by omega
    cases him : imp (h.take i) with
    | error e => simp [derefC, derefCpp, hx, hi2, him]
    | ok m =>
      obtain ⟨ht, hcr⟩ := hm m him
      have hgl : getlineSplit (h.drop (i + 1)) = splitDots (h.drop (i + 1)) := by
        simp [getlineSplit, ht]
      simp [derefC, derefCpp, hx, hi2, him, hgl,
        recGetattrC_eq_walkCpp ga (splitDots (h.drop (i + 1))) m hcr]

theorem impl_agree_witness :
    derefC impAB gaM ("ab#x".toList) = derefCpp impAB gaM ("ab#x".toList) :=
  (impl_agree impAB gaM ("ab#x".toList)).2 2 (by decide) (by decide)
    (fun m hmm => by
      have h1 : impAB (("ab#x".toList).take 2) = Except.ok 0 := rfl
      rw [h1] at hmm
      injection hmm with h2
      subst h2
      exact ⟨by decide, by decide⟩)

end Marshaller
